import Mathlib

/-!
Verification development for the fast-xlsx-reader repository.

The embedding models, from the source files:
  - lib/FastXlsxSheetReader.js : the stateful sheet cursor (read, readAll,
    readMany, reset, destroy, loadSheet);
  - lib/xldates.js : parseDate and tryConvertDate;
  - the facade class (FastXlsxReader) : schema row materialization and the
    output-sink write sequence of a whole-sheet read.

Cell values in the cursor model are integers (the claims under test do not
depend on the value type); the sparse cell grid provided by the external
xlsx collaborator is modelled as a function from row and column index to an
optional value (none encodes an absent cell).  JS numbers used as row and
column indices are modelled as Int (the code coerces them with bitwise-or
zero before use); the serial-date arithmetic is modelled over the rationals.
-/

namespace Fxr

/-- Kinds of errors routed through the handleError helper of the cursor:
a destroyed-cursor error or an out-of-bounds index error. -/
inductive Err where
  | destroyedErr : Err
  | boundsErr : Err
deriving DecidableEq

/-- State of one FastXlsxSheetReader instance: the loaded sheet grid, the
decoded used range, the cursor row index, the destroyed flag, whether an
error handler is registered, and the abort-requested flag. -/
structure SheetSt where
  grid : Int → Int → Option Int
  startRow : Int
  startCol : Int
  endRow : Int
  endCol : Int
  rowIndex : Int
  destroyed : Bool
  handler : Bool
  abortRequested : Bool

/-- List of integers s, s+1, ..., e (empty when e < s); the index sequence
of an ascending for-loop from s while the index stays at most e. -/
def intRangeUp (s e : Int) : List Int :=
  (List.range (e + 1 - s).toNat).map (fun (k : Nat) => s + (k : Int))

/-- List of integers e, e-1, ..., 0 (empty when e < 0); the index sequence
of the descending for-loop of readAll, which runs while the index is
greater than -1. -/
def intRangeDown (e : Int) : List Int :=
  (List.range (e + 1).toNat).map (fun (k : Nat) => e - (k : Int))

/-- Column indices visited by the cell loop of read: startCol to endCol. -/
def colRange (st : SheetSt) : List Int := intRangeUp st.startCol st.endCol

/-- Row materialization of read: for each column in the declared range,
look the cell up in the grid; an existing cell contributes its value and a
missing cell contributes undefined (modelled as none). -/
def rowCells (st : SheetSt) (r : Int) : List (Option Int) :=
  (colRange st).map (fun c => st.grid r c)

/-- Number of grid lookups one successful read performs. -/
def colCount (st : SheetSt) : Nat := (colRange st).length

/-- Result value of the read method: 0 when destroyed, null on an
out-of-bounds index with a registered error handler, the materialized row
on success, or an exception escaping to the caller when an error occurs
and no error handler is registered. -/
inductive ReadRes where
  | zero : ReadRes
  | nullRes : ReadRes
  | row : List (Option Int) → ReadRes
  | thrown : ReadRes
deriving DecidableEq

/-- Negative-index resolution performed by read before bounds validation:
a negative index is offset from endRow. -/
def readResolve (endRow idx : Int) : Int :=
  if idx < 0 then endRow + idx else idx

/-- Observable outcome of one read call: its result, the errors it
reported (to the handler, or raised when none), the number of grid cell
lookups it performed, and whether an exception escaped. -/
structure ReadOut where
  res : ReadRes
  errors : List Err
  gridReads : Nat
  thrown : Bool
deriving DecidableEq

/-- Model of the read method of FastXlsxSheetReader.  A destroyed cursor
reports a destroyed-resource error and returns 0 before touching the grid;
then the index is resolved and bounds-checked (reporting a bounds error
and returning null on failure); otherwise the row is materialized from the
grid. -/
def readOne (st : SheetSt) (idx : Int) : ReadOut :=
  if st.destroyed then
    if st.handler then ⟨ReadRes.zero, [Err.destroyedErr], 0, false⟩
    else ⟨ReadRes.thrown, [Err.destroyedErr], 0, true⟩
  else
    let j := readResolve st.endRow idx
    if j < 0 ∨ j > st.endRow then
      if st.handler then ⟨ReadRes.nullRes, [Err.boundsErr], 0, false⟩
      else ⟨ReadRes.thrown, [Err.boundsErr], 0, true⟩
    else ⟨ReadRes.row (rowCells st j), [], colCount st, false⟩

/-- Abort signal produced by one in-range read inside readAll: the record
callback is invoked with the materialized row and the row index, and a
truthy return value sets the abort-requested flag. -/
def rowAbort (st : SheetSt) (cb : List (Option Int) → Int → Bool) (i : Int) : Bool :=
  cb (rowCells st i) i

/-- Accumulated observation of a readAll loop: the row indices visited (in
visit order), the errors reported, the total grid lookups, and whether an
exception escaped. -/
structure RAOut where
  visited : List Int
  errors : List Err
  gridReads : Nat
  thrown : Bool

/-- Loop body of readAll over the candidate index list, threading the
abort-requested flag.  Each iteration performs one read: on a destroyed
cursor the read reports an error, performs no grid lookup and leaves the
abort flag unchanged (raising instead when no handler is registered);
otherwise the row is materialized and the callback return value becomes
the abort flag.  After each read the loop breaks when the abort flag is
set. -/
def raLoop (dest hnd : Bool) (p : Int → Bool) (cols : Nat) :
    Bool → List Int → RAOut
  | _, [] => ⟨[], [], 0, false⟩
  | ab, i :: rest =>
    if dest then
      if hnd then
        if ab then ⟨[i], [Err.destroyedErr], 0, false⟩
        else
          let o := raLoop dest hnd p cols ab rest
          ⟨i :: o.visited, Err.destroyedErr :: o.errors, o.gridReads, o.thrown⟩
      else ⟨[i], [Err.destroyedErr], 0, true⟩
    else
      let ab2 := p i
      if ab2 then ⟨[i], [], cols, false⟩
      else
        let o := raLoop dest hnd p cols ab2 rest
        ⟨i :: o.visited, o.errors, cols + o.gridReads, o.thrown⟩

/-- Candidate row indices of readAll: the forward loop runs from startRow
up to endRow; the backward loop runs from endRow down while the index is
greater than -1, that is down to 0. -/
def candidates (st : SheetSt) (backwards : Bool) : List Int :=
  if backwards then intRangeDown st.endRow
  else intRangeUp st.startRow st.endRow

/-- Full observation of readAll with a usable record callback. -/
def readAllRun (st : SheetSt) (cb : List (Option Int) → Int → Bool)
    (backwards : Bool) : RAOut :=
  raLoop st.destroyed st.handler (rowAbort st cb) (colCount st)
    st.abortRequested (candidates st backwards)

/-- Return value of readAll, which is also the argument passed to the
one-time end event: the mutable rowCount starts at startRow and is
incremented once per loop iteration, so it equals startRow plus the number
of rows visited. -/
def readAllRet (st : SheetSt) (cb : List (Option Int) → Int → Bool)
    (backwards : Bool) : Int :=
  st.startRow + ((readAllRun st cb backwards).visited).length

/-- Row indices read by the backward branch of readMany: starting at s and
decreasing, while the iteration counter stays below count and the index
stays above -1. -/
def backIndices (s count : Int) : List Int :=
  (List.range (min count (s + 1)).toNat).map (fun (k : Nat) => s - (k : Int))

/-- Row indices read by the forward branch of readMany: starting at s and
increasing, while the iteration counter stays below count and the index
stays at most endRow. -/
def fwdIndices (s count e : Int) : List Int :=
  (List.range (min count (e - s + 1)).toNat).map (fun (k : Nat) => s + (k : Int))

/-- Model of readMany: a negative count reports an error and returns null
(none); a negative startIndex is resolved against endRow and rows are read
backward from there; otherwise rows are read forward from startIndex.
Each iteration pushes the result of one read call. -/
def readMany (st : SheetSt) (startIndex count : Int) :
    Option (List ReadRes) :=
  if count < 0 then none
  else
    some
      (if startIndex < 0 then
        (backIndices (st.endRow + startIndex) count).map
          (fun i => (readOne st i).res)
      else
        (fwdIndices startIndex count st.endRow).map
          (fun i => (readOne st i).res))

/-- Model of destroy: sets the destroyed flag (and severs the sheet and
book references); nothing in the class ever clears the flag again. -/
def destroyOp (st : SheetSt) : SheetSt := { st with destroyed := true }

/-- Model of reset: when not destroyed, sets the row index to the
before-first sentinel; when destroyed, the isDestroyed guard reports a
destroyed-resource error (raising when no handler is registered) and the
state is left unchanged.  Returns the new state, the reported errors and
whether an exception escaped. -/
def resetOp (st : SheetSt) : SheetSt × List Err × Bool :=
  if st.destroyed then (st, [Err.destroyedErr], !st.handler)
  else ({ st with rowIndex := st.startRow - 1 }, [], false)

/-- Declared used range of a sheet as decoded from its ref string,
together with its cell grid. -/
structure SheetData where
  sRow : Int
  sCol : Int
  eRow : Int
  eCol : Int
  cells : Int → Int → Option Int

/-- Workbook as produced by the external xlsx collaborator: an ordered
sheet-name list and a name-keyed sheet map (a JS object keyed by sheet
name). -/
structure Book where
  sheetNames : List String
  sheets : String → Option SheetData

/-- Argument given to loadSheet, discriminated the way the code does with
typeof: a string, a number, or anything else. -/
inductive NameOrIndex where
  | str : String → NameOrIndex
  | num : Int → NameOrIndex
  | other : NameOrIndex

/-- Sheet lookup performed by loadSheet: a string argument indexes the
name-keyed sheet map directly; a number argument also indexes the
name-keyed sheet map (JS property access coerces the number to its decimal
string); anything else falls back to the first entry of the sheet-name
list.  A none result makes the subsequent decode of the ref string throw. -/
def loadSheetLookup (bk : Book) : NameOrIndex → Option SheetData
  | NameOrIndex.str s => bk.sheets s
  | NameOrIndex.num n => bk.sheets (toString n)
  | NameOrIndex.other =>
    match bk.sheetNames.head? with
    | some nm => bk.sheets nm
    | none => none

/-- JS rounding to the nearest integer as used by Math.round: halves round
up, so the result is the floor of the argument plus one half. -/
def jsRound (x : ℚ) : Int := Int.floor (x + 1 / 2)

/-- Model of parseDate from lib/xldates.js, returning the millisecond
offset of the produced Date from the reference epoch: when epoch1904 is
set the serial gains 1462 days; the day count relative to the constant
day offset 70*365+19 is converted to milliseconds and rounded, and a
fixed twelve-hour offset is added after rounding. -/
def parseDate (serialDate : ℚ) (epoch1904 : Bool) : Int :=
  let s : ℚ := if epoch1904 then serialDate + 1462 else serialDate
  let daysBeforeUnixEpoch : ℚ := 70 * 365 + 19
  let hour : ℚ := 60 * 60 * 1000
  jsRound ((s - daysBeforeUnixEpoch) * 24 * hour) + 12 * (60 * 60 * 1000)

/-- JS values flowing through tryConvertDate: a number, a string, null,
undefined, a boolean, or a Date.  A Date carries its millisecond offset,
with none standing for an Invalid Date (NaN time value). -/
inductive JSVal where
  | num : ℚ → JSVal
  | str : String → JSVal
  | nullv : JSVal
  | undef : JSVal
  | boolv : Bool → JSVal
  | date : Option Int → JSVal
deriving DecidableEq

/-- Decimal digit value of a character, when it is a digit. -/
def digitVal (c : Char) : Option Nat :=
  if c.isDigit then some (c.toNat - 48) else none

/-- Hexadecimal digit value of a character, when it is a hex digit. -/
def hexVal (c : Char) : Option Nat :=
  if c.isDigit then some (c.toNat - 48)
  else if 97 ≤ c.toNat ∧ c.toNat ≤ 102 then some (c.toNat - 87)
  else if 65 ≤ c.toNat ∧ c.toNat ≤ 70 then some (c.toNat - 55)
  else none

/-- Fold the leading digits of a character list into an accumulator in the
given radix, stopping at the first non-digit. -/
def digitsLoop (radix : Nat) (dv : Char → Option Nat) :
    Nat → List Char → Nat
  | acc, [] => acc
  | acc, c :: rest =>
    match dv c with
    | none => acc
    | some d => digitsLoop radix dv (acc * radix + d) rest

/-- Parse the longest run of leading digits of a character list in the
given radix, returning none when no leading digit exists (the NaN case of
parseInt). -/
def parseDigits (radix : Nat) (dv : Char → Option Nat) :
    List Char → Option Nat
  | [] => none
  | c :: rest =>
    match dv c with
    | none => none
    | some d => some (digitsLoop radix dv d rest)

/-- Model of the JS parseInt builtin with no radix argument: leading
whitespace is skipped, an optional sign is consumed, a leading 0x or 0X
switches to hexadecimal, the longest run of leading digits is parsed and
anything after it is ignored; none models a NaN result (no digit found). -/
def jsParseInt (s : String) : Option Int :=
  let cs := (s.toList).dropWhile (fun c => c.isWhitespace)
  let sgn : Int := match cs with
    | c :: _ => if c = '-' then -1 else 1
    | [] => 1
  let cs2 := match cs with
    | c :: rest => if c = '-' ∨ c = '+' then rest else cs
    | [] => cs
  match cs2 with
  | c0 :: c1 :: rest =>
    if c0 = '0' ∧ (c1 = 'x' ∨ c1 = 'X') then
      (parseDigits 16 hexVal rest).map (fun n => sgn * (n : Int))
    else (parseDigits 10 digitVal cs2).map (fun n => sgn * (n : Int))
  | _ => (parseDigits 10 digitVal cs2).map (fun n => sgn * (n : Int))

/-- Model of tryConvertDate from lib/xldates.js.  The external Date.parse
builtin is passed in as dateParse (returning the parsed millisecond
offset, or none for NaN).  A number goes through parseDate; a string is
integer-parsed first, a success being treated as a serial through
parseDate and a failure falling back to a Date built from Date.parse
(an unparseable string thus yields an Invalid Date, which is returned,
not the original value); any other input is stringified and
integer-parsed, null and undefined throwing on the stringification so the
catch clause returns them unchanged; a boolean stringifies to a digitless
string, so its integer parse is NaN and the NaN serial propagates to an
Invalid Date. -/
def tryConvertDate (dateParse : String → Option Int) (v : JSVal)
    (epoch1904 : Bool) : JSVal :=
  match v with
  | JSVal.num q => JSVal.date (some (parseDate q epoch1904))
  | JSVal.str s =>
    match jsParseInt s with
    | some n => JSVal.date (some (parseDate (n : ℚ) epoch1904))
    | none => JSVal.date (dateParse s)
  | JSVal.nullv => v
  | JSVal.undef => v
  | JSVal.boolv _ => JSVal.date none
  | JSVal.date _ => JSVal.date none

/-- Cast field of a schema entry, discriminated the way the code does:
not a function (value stored verbatim), the Date constructor (value
converted through tryConvertDate), or some other function (applied to the
value). -/
inductive XCast where
  | notFn : XCast
  | dateFn : XCast
  | customFn : (JSVal → JSVal) → XCast

/-- One schema entry: the target property name and the cast field. -/
structure SchemaEntry where
  prop : String
  cast : XCast

/-- Cast application of rowFromSchema.  The Date branch calls
tryConvertDate without an epoch argument, so the epoch1904 flag is the
falsy undefined. -/
def applyCast (dateParse : String → Option Int) (c : XCast) (v : JSVal) :
    JSVal :=
  match c with
  | XCast.notFn => v
  | XCast.dateFn => tryConvertDate dateParse v false
  | XCast.customFn f => f v

/-- Undefined-or-null coercion performed on each looked-up cell value
before casting: undefined and null become the empty string. -/
def coerceCell (v : JSVal) : JSVal :=
  if v = JSVal.undef ∨ v = JSVal.nullv then JSVal.str "" else v

/-- Loop of rowFromSchema over the indexed header columns, with the
has-schema-error flag threaded through.  A mapped column contributes one
record property.  An unmapped column met while the flag is clear sets the
flag, reports one schema mapping error and quits (the quit helper
terminates the process, so nothing later runs); an unmapped column met
while the flag is set is skipped silently.  Returns the record
assignments, the updated flag, the number of schema errors reported and
whether the quit helper ran. -/
def rfsLoop (dateParse : String → Option Int)
    (schema : String → Option SchemaEntry) (row : List JSVal) :
    Bool → List (Nat × String) → List (String × JSVal) × Bool × Nat × Bool
  | hasErr, [] => ([], hasErr, 0, false)
  | hasErr, (k, col) :: rest =>
    match schema col with
    | some meta =>
      let v := coerceCell (row.getD k JSVal.undef)
      let o := rfsLoop dateParse schema row hasErr rest
      ((meta.prop, applyCast dateParse meta.cast v) :: o.1, o.2)
    | none =>
      if hasErr then rfsLoop dateParse schema row hasErr rest
      else ([], true, 1, true)

/-- Pair each element of a list with its position, counting from the
given start: the column-and-index enumeration the forEach of
rowFromSchema iterates over. -/
def withIdx : Nat → List String → List (Nat × String)
  | _, [] => []
  | k, c :: rest => (k, c) :: withIdx (k + 1) rest

/-- Data-row driver of one facade read with a schema: each data row goes
through rowFromSchema; once the quit helper has run nothing later is
processed.  Returns the total number of schema mapping errors reported,
the final has-schema-error flag and whether the read was stopped. -/
def processRows (dateParse : String → Option Int)
    (schema : String → Option SchemaEntry) (hdr : List String) :
    Bool → List (List JSVal) → Nat × Bool × Bool
  | hasErr, [] => (0, hasErr, false)
  | hasErr, r :: rs =>
    let o := rfsLoop dateParse schema r hasErr (withIdx 0 hdr)
    if o.2.2.2 then (o.2.2.1, o.2.1, true)
    else
      let o2 := processRows dateParse schema hdr o.2.1 rs
      (o.2.2.1 + o2.1, o2.2.1, o2.2.2)

/-- Events the sheet reader delivers to the facade callback during a
forward readAll: the start event, one record event per visited row, and
the end event. -/
inductive SEv where
  | startEv : SEv
  | recordEv : Int → SEv
  | endEv : SEv
deriving DecidableEq

/-- Events fired by one read call inside readAll: the one-time start
event when the started flag is still clear, then the record event. -/
def readEventsRow (started : Bool) (i : Int) : List SEv :=
  (if started then [] else [SEv.startEv]) ++ [SEv.recordEv i]

/-- Event emission of the readAll row loop, threading the started flag,
which becomes set after the first read. -/
def eventsLoop : Bool → List Int → List SEv
  | _, [] => []
  | st, i :: rest => readEventsRow st i ++ eventsLoop true rest

/-- Events of one complete forward readAll on a freshly loaded sheet (the
started flag is clear after loadSheet): readAll itself fires start before
the loop, each row read fires its events (the first read fires start a
second time), and end fires after the loop. -/
def readAllEvents (s e : Int) : List SEv :=
  SEv.startEv :: (eventsLoop false (intRangeUp s e) ++ [SEv.endEv])

/-- Calls the facade makes on the output sink, at the abstraction of the
row-sink interface: one header-marker write, one record write, one
finalize. -/
inductive SinkEv where
  | headerMark : SinkEv
  | recordWrite : SinkEv
  | finalizeEv : SinkEv
deriving DecidableEq

/-- Facade output state during a read: whether the output stream is open
and whether a record separator is pending. -/
structure FState where
  hasStream : Bool
  hasRecord : Bool

/-- Model of the writeHeader helper in json mode: writes the array-opening
header marker whenever the stream is open. -/
def writeHeaderModel (fs : FState) : List SinkEv :=
  if fs.hasStream then [SinkEv.headerMark] else []

/-- One step of the facade event callback in json mode with an output
configured: a start event re-runs createOutStream and writeHeader; a
record event at the start row is consumed as the header row (no sink
write), any other record event is materialized and written; the end event
finalizes, closing the stream. -/
def facadeStep (sr : Int) (fs : FState) : SEv → FState × List SinkEv
  | SEv.startEv =>
    let fs2 : FState := { fs with hasStream := true }
    (fs2, writeHeaderModel fs2)
  | SEv.recordEv i =>
    if i = sr then (fs, [])
    else if fs.hasStream then ({ fs with hasRecord := true }, [SinkEv.recordWrite])
    else (fs, [])
  | SEv.endEv =>
    if fs.hasStream then ({ fs with hasStream := false }, [SinkEv.finalizeEv])
    else (fs, [])

/-- Fold of the facade event callback over a sheet-reader event list,
collecting the sink writes. -/
def facadeFold (sr : Int) : FState → List SEv → List SinkEv
  | _, [] => []
  | fs, e :: rest =>
    let o := facadeStep sr fs e
    o.2 ++ facadeFold sr o.1 rest

/-- Sink-write trace of one whole facade read in json mode with an output
configured, over a sheet whose rows run from s to e: the read method first
creates the stream and calls writeHeader directly, then drives the sheet
reader, whose events the callback consumes. -/
def facadeReadTrace (s e : Int) : List SinkEv :=
  writeHeaderModel ⟨true, false⟩ ++
    facadeFold s ⟨true, false⟩ (readAllEvents s e)

/-- Concrete cursor whose declared range starts at row 1 and ends at row 2
(a sheet whose ref string declares A2:A3), each stored cell holding its
own row index. -/
def stC : SheetSt :=
  { grid := fun r _ => some r, startRow := 1, startCol := 0, endRow := 2,
    endCol := 0, rowIndex := 0, destroyed := false, handler := true,
    abortRequested := false }

/-- Record callback that never requests an abort. -/
def cbF : List (Option Int) → Int → Bool := fun _ _ => false

/-- Record callback that requests an abort exactly on row 2. -/
def cbA : List (Option Int) → Int → Bool := fun _ i => i == 2

/-- Concrete cursor over a sheet with ten rows, indices 0 through 9, one
column, each stored cell holding its own row index. -/
def st10 : SheetSt :=
  { grid := fun r _ => some r, startRow := 0, startCol := 0, endRow := 9,
    endCol := 0, rowIndex := -1, destroyed := false, handler := true,
    abortRequested := false }

/-- Concrete destroyed cursor with a registered error handler. -/
def stD : SheetSt :=
  { grid := fun r _ => some r, startRow := 0, startCol := 0, endRow := 4,
    endCol := 1, rowIndex := -1, destroyed := true, handler := true,
    abortRequested := false }

/-- Model of the external Date.parse builtin on strings it cannot parse
as a calendar date: the NaN result. -/
def noParse : String → Option Int := fun _ => none

/-- Concrete schema mapping only the column A, with a pass-through cast. -/
def schemaA : String → Option SchemaEntry :=
  fun c => if c = "A" then some ⟨"a", XCast.notFn⟩ else none

/-- Concrete sheet data for the workbook model: a two-by-two used range
with no stored cells. -/
def sd1 : SheetData :=
  ⟨0, 0, 1, 1, fun _ _ => none⟩

/-- Concrete workbook holding exactly one sheet named Sheet1. -/
def bk1 : Book :=
  ⟨["Sheet1"], fun nm => if nm = "Sheet1" then some sd1 else none⟩

/-! General lemmas about the model, shared by the claim theorems. -/

theorem mem_intRangeUp {i s e : Int} :
    i ∈ intRangeUp s e ↔ s ≤ i ∧ i ≤ e := by
  unfold intRangeUp
  constructor
  · intro h
    rw [List.mem_map] at h
    obtain ⟨k, hk, hke⟩ := h
    rw [List.mem_range] at hk
    omega
  · intro h
    rw [List.mem_map]
    refine ⟨(i - s).toNat, ?_, ?_⟩
    · rw [List.mem_range]; omega
    · omega

theorem mem_intRangeDown {i e : Int} :
    i ∈ intRangeDown e ↔ 0 ≤ i ∧ i ≤ e := by
  unfold intRangeDown
  constructor
  · intro h
    rw [List.mem_map] at h
    obtain ⟨k, hk, hke⟩ := h
    rw [List.mem_range] at hk
    omega
  · intro h
    rw [List.mem_map]
    refine ⟨(e - i).toNat, ?_, ?_⟩
    · rw [List.mem_range]; omega
    · omega

theorem pairwise_intRangeUp (s e : Int) :
    List.Pairwise (fun a b => a < b) (intRangeUp s e) := by
  unfold intRangeUp
  rw [List.pairwise_map]
  exact (List.pairwise_lt_range _).imp (fun h => by omega)

theorem pairwise_intRangeDown (e : Int) :
    List.Pairwise (fun a b => b < a) (intRangeDown e) := by
  unfold intRangeDown
  rw [List.pairwise_map]
  exact (List.pairwise_lt_range _).imp (fun h => by omega)

theorem length_intRangeUp (s e : Int) :
    (intRangeUp s e).length = (e + 1 - s).toNat := by
  unfold intRangeUp
  rw [List.length_map, List.length_range]

theorem raLoop_live_noabort {hnd : Bool} {p : Int → Bool} {cols : Nat}
    {l : List Int} (ab : Bool) (h : ∀ i ∈ l, p i = false) :
    (raLoop false hnd p cols ab l).visited = l
    ∧ (raLoop false hnd p cols ab l).errors = []
    ∧ (raLoop false hnd p cols ab l).gridReads = cols * l.length
    ∧ (raLoop false hnd p cols ab l).thrown = false := by
  induction l generalizing ab with
  | nil => simp [raLoop]
  | cons i rest ih =>
    have hp : p i = false := h i (List.mem_cons_self i rest)
    have ih2 := ih false (fun j hj => h j (List.mem_cons_of_mem i hj))
    simp only [raLoop, hp, Bool.false_eq_true, if_false, List.length_cons]
    refine ⟨?_, ?_, ?_, ?_⟩
    · simp [ih2.1]
    · simp [ih2.2.1]
    · simp only [ih2.2.2.1]; ring
    · simp [ih2.2.2.2]

theorem raLoop_live_split {hnd : Bool} {p : Int → Bool} {cols : Nat}
    (l1 : List Int) {a : Int} (l2 : List Int) (ab : Bool)
    (h1 : ∀ i ∈ l1, p i = false) (ha : p a = true) :
    (raLoop false hnd p cols ab (l1 ++ a :: l2)).visited = l1 ++ [a] := by
  induction l1 generalizing ab with
  | nil => simp [raLoop, ha]
  | cons i rest ih =>
    have hp : p i = false := h1 i (List.mem_cons_self i rest)
    have ih2 := ih false (fun j hj => h1 j (List.mem_cons_of_mem i hj))
    simp only [List.cons_append, raLoop, hp, Bool.false_eq_true, if_false]
    simp [ih2]

theorem raLoop_dest_handled (p : Int → Bool) (cols : Nat) (ab : Bool)
    (l : List Int) :
    (raLoop true true p cols ab l).gridReads = 0
    ∧ (∀ x ∈ (raLoop true true p cols ab l).errors, x = Err.destroyedErr)
    ∧ (raLoop true true p cols ab l).thrown = false
    ∧ (l ≠ [] → (raLoop true true p cols ab l).errors ≠ []) := by
  induction l generalizing ab with
  | nil => simp [raLoop]
  | cons i rest ih =>
    by_cases hab : ab
    · subst hab
      simp [raLoop]
    · have hab2 : ab = false := by simpa using hab
      subst hab2
      have ih2 := ih false
      simp only [raLoop, if_true, Bool.false_eq_true, if_false]
      refine ⟨ih2.1, ?_, ih2.2.2.1, ?_⟩
      · intro x hx
        rcases List.mem_cons.mp hx with h | h
        · exact h
        · exact ih2.2.1 x h
      · intro _
        simp

/-! Claim theorems. -/

/-- C1, counterexample: on a loaded sheet whose declared range is rows 1
to 2, a forward readAll that completes (the callback never aborts) visits
2 rows but returns 3, because the returned counter starts at startRow
rather than at zero; so the returned value is not the number of rows
actually visited, endRow minus startRow plus 1. -/
theorem c1_counterexample :
    readAllRet stC cbF false = 3
    ∧ ((readAllRun stC cbF false).visited).length = 2
    ∧ stC.endRow - stC.startRow + 1 = 2
    ∧ readAllRet stC cbF false ≠ stC.endRow - stC.startRow + 1 := by
  refine ⟨by decide, by decide, by decide, by decide⟩

/-- C1, amended: for every loaded sheet and usable record callback,
readAll returns, and passes to the end event, startRow plus the number of
rows actually visited (so endRow plus 1, not endRow minus startRow plus 1,
for a forward run that completes); when the callback first returns a
truthy abort signal on some row, the visited rows are exactly the
candidate rows up to and including that aborting row, with no later row
visited. -/
theorem c1_readAll_count (st : SheetSt)
    (cb : List (Option Int) → Int → Bool) (b : Bool)
    (hd : st.destroyed = false) :
    readAllRet st cb b = st.startRow + ((readAllRun st cb b).visited).length
    ∧ ((∀ i ∈ candidates st b, rowAbort st cb i = false) →
        (readAllRun st cb b).visited = candidates st b)
    ∧ (b = false → (∀ i ∈ candidates st false, rowAbort st cb i = false) →
        st.startRow ≤ st.endRow + 1 →
        readAllRet st cb false = st.endRow + 1)
    ∧ (∀ l1 a l2, candidates st b = l1 ++ a :: l2 →
        (∀ i ∈ l1, rowAbort st cb i = false) → rowAbort st cb a = true →
        (readAllRun st cb b).visited = l1 ++ [a]) := by
  refine ⟨rfl, ?_, ?_, ?_⟩
  · intro hab
    unfold readAllRun
    rw [hd]
    exact (raLoop_live_noabort st.abortRequested hab).1
  · intro hb hab hle
    unfold readAllRet readAllRun
    rw [hd]
    rw [(raLoop_live_noabort st.abortRequested hab).1]
    unfold candidates
    simp only [Bool.false_eq_true, if_false]
    rw [length_intRangeUp]
    omega
  · intro l1 a l2 hsplit h1 ha
    unfold readAllRun
    rw [hd, hsplit]
    exact raLoop_live_split l1 l2 st.abortRequested h1 ha

/-- C1, witness: on the concrete range rows 1 to 2 with a callback that
aborts exactly on row 2, the visited rows are exactly rows 1 and 2. -/
theorem c1_witness :
    (readAllRun stC cbA false).visited = [1] ++ [2] :=
  (c1_readAll_count stC cbA false rfl).2.2.2 [1] 2 []
    (by decide) (by decide) (by decide)

/-- C2, counterexample: on a loaded sheet whose declared range is rows 1
to 2, the backward readAll visits row 0, which the forward readAll never
visits, so the two directions do not visit the same set of rows; the
backward loop runs from endRow down to row 0, not down to startRow. -/
theorem c2_counterexample :
    (readAllRun stC cbF true).visited = [2, 1, 0]
    ∧ (readAllRun stC cbF false).visited = [1, 2]
    ∧ (0 : Int) ∈ (readAllRun stC cbF true).visited
    ∧ (0 : Int) ∉ (readAllRun stC cbF false).visited := by
  refine ⟨by decide, by decide, by decide, by decide⟩

/-- C2, amended: with a callback that never aborts on a live cursor, the
forward readAll visits exactly the rows startRow through endRow, each
once, in strictly increasing order; the backward readAll visits exactly
the rows 0 through endRow (a superset of the declared range whenever
startRow exceeds 0), each once, in strictly decreasing order. -/
theorem c2_visit_order (st : SheetSt)
    (cb : List (Option Int) → Int → Bool)
    (hd : st.destroyed = false)
    (hf : ∀ i ∈ candidates st false, rowAbort st cb i = false)
    (hb : ∀ i ∈ candidates st true, rowAbort st cb i = false) :
    (readAllRun st cb false).visited = intRangeUp st.startRow st.endRow
    ∧ List.Pairwise (fun a b => a < b) ((readAllRun st cb false).visited)
    ∧ (∀ i, i ∈ (readAllRun st cb false).visited ↔
        st.startRow ≤ i ∧ i ≤ st.endRow)
    ∧ (readAllRun st cb true).visited = intRangeDown st.endRow
    ∧ List.Pairwise (fun a b => b < a) ((readAllRun st cb true).visited)
    ∧ (∀ i, i ∈ (readAllRun st cb true).visited ↔ 0 ≤ i ∧ i ≤ st.endRow) := by
  have hF : (readAllRun st cb false).visited = intRangeUp st.startRow st.endRow := by
    unfold readAllRun
    rw [hd]
    rw [(raLoop_live_noabort st.abortRequested hf).1]
    rfl
  have hB : (readAllRun st cb true).visited = intRangeDown st.endRow := by
    unfold readAllRun
    rw [hd]
    rw [(raLoop_live_noabort st.abortRequested hb).1]
    rfl
  refine ⟨hF, ?_, ?_, hB, ?_, ?_⟩
  · rw [hF]; exact pairwise_intRangeUp _ _
  · intro i; rw [hF]; exact mem_intRangeUp
  · rw [hB]; exact pairwise_intRangeDown _
  · intro i; rw [hB]; exact mem_intRangeDown

/-- C2, witness: on the concrete range rows 1 to 2 with a callback that
never aborts, the forward visit order is exactly the ascending range from
startRow to endRow. -/
theorem c2_witness :
    (readAllRun stC cbF false).visited = intRangeUp stC.startRow stC.endRow :=
  (c2_visit_order stC cbF rfl (by decide) (by decide)).1

/-- C3, counterexample: on a sheet with ten data rows, indices 0 through
9, readMany with startIndex -1 and count 3 returns the rows at indices 8,
7 and 6, not the last three rows 9, 8 and 7: the negative start index
resolves to endRow plus startIndex, so -1 denotes the second-to-last row,
and the sequence skips the last row. -/
theorem c3_counterexample :
    readMany st10 (-1) 3 =
      some [ReadRes.row [some 8], ReadRes.row [some 7], ReadRes.row [some 6]]
    ∧ readMany st10 (-1) 3 ≠
      some [ReadRes.row [some 9], ReadRes.row [some 8], ReadRes.row [some 7]] := by
  refine ⟨by decide, by decide⟩

/-- C3, amended: for every negative startIndex and non-negative count on
a live cursor, readMany resolves the start to endRow plus startIndex and
reads backward from that row (so startIndex -1 starts at the
second-to-last row of the declared range), returning the rows at indices
endRow plus startIndex down to endRow plus startIndex minus count plus 1,
in strictly decreasing order; the sequence length is the minimum of count
and the rows available in that direction, endRow plus startIndex plus 1,
and is shorter than count when fewer rows exist. -/
theorem c3_readMany_backward (st : SheetSt) (si count : Int)
    (hd : st.destroyed = false) (hsi : si < 0) (hc : 0 ≤ count) :
    readMany st si count =
      some ((backIndices (st.endRow + si) count).map
        (fun i => ReadRes.row (rowCells st i)))
    ∧ (backIndices (st.endRow + si) count).length =
        (min count (st.endRow + si + 1)).toNat
    ∧ List.Pairwise (fun a b => b < a) (backIndices (st.endRow + si) count)
    ∧ (∀ i ∈ backIndices (st.endRow + si) count,
        0 ≤ i ∧ st.endRow + si - count < i ∧ i ≤ st.endRow + si) := by
  have hmem : ∀ i ∈ backIndices (st.endRow + si) count,
      0 ≤ i ∧ st.endRow + si - count < i ∧ i ≤ st.endRow + si := by
    intro i hi
    unfold backIndices at hi
    rw [List.mem_map] at hi
    obtain ⟨k, hk, hke⟩ := hi
    rw [List.mem_range] at hk
    omega
  refine ⟨?_, ?_, ?_, hmem⟩
  · unfold readMany
    have h1 : ¬count < 0 := by omega
    rw [if_neg h1, if_pos hsi]
    congr 1
    apply List.map_congr_left
    intro i hi
    have hb := hmem i hi
    unfold readOne
    rw [hd]
    have hj : readResolve st.endRow i = i := by
      unfold readResolve
      rw [if_neg (by omega)]
    simp only [hj]
    have hcond : ¬(i < 0 ∨ i > st.endRow) := by omega
    rw [if_neg hcond]
    simp
  · unfold backIndices
    rw [List.length_map, List.length_range]
  · unfold backIndices
    rw [List.pairwise_map]
    exact (List.pairwise_lt_range _).imp (fun h => by omega)

/-- C3, witness: on the concrete ten-row sheet, readMany with startIndex
-1 and count 3 returns exactly the rows at the indices of the backward
index list, and that list has the predicted length 3. -/
theorem c3_witness :
    readMany st10 (-1) 3 =
      some ((backIndices (st10.endRow + (-1)) 3).map
        (fun i => ReadRes.row (rowCells st10 i)))
    ∧ (backIndices (st10.endRow + (-1)) 3).length =
        (min 3 (st10.endRow + (-1) + 1)).toNat := by
  have h := c3_readMany_backward st10 (-1) 3 rfl (by decide) (by decide)
  exact ⟨h.1, h.2.1⟩

/-- C4, the code at the failing input: on a string that parses neither as
an integer nor as a calendar date, tryConvertDate returns an Invalid Date
(a Date with a NaN time value, here date none), not the original string,
because the string branch builds a Date from the NaN result of the
calendar parse instead of returning the input; only inputs whose
stringification throws reach the catch clause that restores the original
value.  This contradicts the documented behavior that a failed conversion
returns the value as is. -/
theorem c4_invalid_date_returned :
    jsParseInt "not-a-date" = none
    ∧ tryConvertDate noParse (JSVal.str "not-a-date") false = JSVal.date none
    ∧ tryConvertDate noParse (JSVal.str "not-a-date") false ≠
        JSVal.str "not-a-date"
    ∧ tryConvertDate noParse JSVal.nullv false = JSVal.nullv := by
  refine ⟨by decide, by decide, by decide, by decide⟩

theorem rfsLoop_flagged (dp : String → Option Int)
    (schema : String → Option SchemaEntry) (row : List JSVal)
    (cols : List (Nat × String)) :
    (rfsLoop dp schema row true cols).2 = (true, 0, false) := by
  induction cols with
  | nil => rfl
  | cons x rest ih =>
    obtain ⟨k, col⟩ := x
    cases hs : schema col with
    | some meta => simp [rfsLoop, hs, ih]
    | none => simp [rfsLoop, hs, ih]

theorem rfsLoop_clean (dp : String → Option Int)
    (schema : String → Option SchemaEntry) (row : List JSVal)
    (cols : List (Nat × String))
    (h : ∀ x ∈ cols, schema x.2 ≠ none) :
    (rfsLoop dp schema row false cols).2 = (false, 0, false) := by
  induction cols with
  | nil => rfl
  | cons x rest ih =>
    obtain ⟨k, col⟩ := x
    cases hs : schema col with
    | some meta =>
      have ih2 := ih (fun y hy => h y (List.mem_cons_of_mem _ hy))
      simp [rfsLoop, hs, ih2]
    | none =>
      exact absurd hs (h (k, col) (List.mem_cons_self _ _))

theorem rfsLoop_hit (dp : String → Option Int)
    (schema : String → Option SchemaEntry) (row : List JSVal)
    (cols : List (Nat × String))
    (h : ∃ x ∈ cols, schema x.2 = none) :
    (rfsLoop dp schema row false cols).2 = (true, 1, true) := by
  induction cols with
  | nil => simp at h
  | cons x rest ih =>
    obtain ⟨k, col⟩ := x
    cases hs : schema col with
    | some meta =>
      have h2 : ∃ x ∈ rest, schema x.2 = none := by
        rcases h with ⟨y, hy, hyn⟩
        rcases List.mem_cons.mp hy with h | h
        · subst h; simp at hyn; rw [hs] at hyn; exact absurd hyn (by simp)
        · exact ⟨y, h, hyn⟩
      simp [rfsLoop, hs, ih h2]
    | none =>
      simp [rfsLoop, hs]

theorem mem_withIdx_of_mem {c : String} {hdr : List String}
    (h : c ∈ hdr) (n : Nat) : ∃ k, (k, c) ∈ withIdx n hdr := by
  induction hdr generalizing n with
  | nil => simp at h
  | cons d rest ih =>
    rcases List.mem_cons.mp h with h2 | h2
    · subst h2; exact ⟨n, List.mem_cons_self _ _⟩
    · obtain ⟨k, hk⟩ := ih h2 (n + 1)
      exact ⟨k, List.mem_cons_of_mem _ hk⟩

theorem snd_mem_of_mem_withIdx {x : Nat × String} {hdr : List String}
    {n : Nat} (h : x ∈ withIdx n hdr) : x.2 ∈ hdr := by
  induction hdr generalizing n with
  | nil => simp [withIdx] at h
  | cons d rest ih =>
    rcases List.mem_cons.mp h with h2 | h2
    · subst h2; exact List.mem_cons_self _ _
    · exact List.mem_cons_of_mem _ (ih h2)

theorem processRows_le_one (dp : String → Option Int)
    (schema : String → Option SchemaEntry) (hdr : List String)
    (rows : List (List JSVal)) :
    (processRows dp schema hdr false rows).1 ≤ 1 := by
  induction rows with
  | nil => simp [processRows]
  | cons r rs ih =>
    by_cases hex : ∃ x ∈ withIdx 0 hdr, schema x.2 = none
    · have ho := rfsLoop_hit dp schema r (withIdx 0 hdr) hex
      simp [processRows, ho]
    · have hall : ∀ x ∈ withIdx 0 hdr, schema x.2 ≠ none := by
        intro x hx
        exact fun hn => hex ⟨x, hx, hn⟩
      have ho := rfsLoop_clean dp schema r (withIdx 0 hdr) hall
      simp only [processRows, ho]
      simpa using ih

/-- C5, claim: during one facade read with a schema, the schema mapping
error is reported at most once, and when some header column has no schema
entry and at least one data row is processed it is reported exactly once
and the read is stopped by the quit helper; later unmapped columns are
skipped silently because the has-schema-error flag stays set. -/
theorem c5_schema_error_once (dp : String → Option Int)
    (schema : String → Option SchemaEntry) (hdr : List String)
    (rows : List (List JSVal)) :
    (processRows dp schema hdr false rows).1 ≤ 1
    ∧ ((∃ c ∈ hdr, schema c = none) → rows ≠ [] →
        (processRows dp schema hdr false rows).1 = 1
        ∧ (processRows dp schema hdr false rows).2.2 = true) := by
  refine ⟨processRows_le_one dp schema hdr rows, ?_⟩
  rintro ⟨c, hc, hcn⟩ hrows
  cases rows with
  | nil => exact absurd rfl hrows
  | cons r rs =>
    obtain ⟨k, hk⟩ := mem_withIdx_of_mem hc 0
    have ho := rfsLoop_hit dp schema r (withIdx 0 hdr) ⟨(k, c), hk, hcn⟩
    constructor
    · simp [processRows, ho]
    · simp [processRows, ho]

/-- C5, witness: with a schema mapping only column A, a header naming
columns A and B, and two data rows, exactly one schema mapping error is
reported and the read is stopped. -/
theorem c5_witness :
    (processRows noParse schemaA ["A", "B"] false
      [[JSVal.num 1, JSVal.num 2], [JSVal.num 3, JSVal.num 4]]).1 = 1
    ∧ (processRows noParse schemaA ["A", "B"] false
      [[JSVal.num 1, JSVal.num 2], [JSVal.num 3, JSVal.num 4]]).2.2 = true :=
  (c5_schema_error_once noParse schemaA ["A", "B"]
      [[JSVal.num 1, JSVal.num 2], [JSVal.num 3, JSVal.num 4]]).2
    ⟨"B", by decide, by unfold schemaA; rw [if_neg (by decide)]⟩ (by decide)

/-- C6, claim: destroy sets the destroyed flag and no modelled operation
ever clears it; on a destroyed cursor with a registered error handler,
reset leaves the state unchanged and reports exactly one destroyed
resource error, read reports it, returns 0 and performs no grid lookup,
and readAll reports only destroyed resource errors (at least one whenever
its loop runs) and performs no grid lookup. -/
theorem c6_destroyed_forever (st : SheetSt)
    (cb : List (Option Int) → Int → Bool) (b : Bool) (idx : Int)
    (hd : st.destroyed = true) (hh : st.handler = true) :
    (∀ s2 : SheetSt, (destroyOp s2).destroyed = true)
    ∧ (∀ s2 : SheetSt, (resetOp s2).1.destroyed = s2.destroyed)
    ∧ (resetOp st).1 = st
    ∧ (resetOp st).2.1 = [Err.destroyedErr]
    ∧ (readOne st idx).res = ReadRes.zero
    ∧ (readOne st idx).errors = [Err.destroyedErr]
    ∧ (readOne st idx).gridReads = 0
    ∧ (readAllRun st cb b).gridReads = 0
    ∧ (∀ x ∈ (readAllRun st cb b).errors, x = Err.destroyedErr)
    ∧ (candidates st b ≠ [] → (readAllRun st cb b).errors ≠ [])
    ∧ (∀ s2 : SheetSt, s2.destroyed = true → s2.handler = false →
        (readOne s2 idx).thrown = true ∧ (readOne s2 idx).gridReads = 0) := by
  have hra := raLoop_dest_handled (rowAbort st cb) (colCount st)
    st.abortRequested (candidates st b)
  refine ⟨?_, ?_, ?_, ?_, ?_, ?_, ?_, ?_, ?_, ?_, ?_⟩
  · intro s2; rfl
  · intro s2; unfold resetOp; split <;> rfl
  · simp [resetOp, hd]
  · simp [resetOp, hd]
  · simp [readOne, hd, hh]
  · simp [readOne, hd, hh]
  · simp [readOne, hd, hh]
  · unfold readAllRun; rw [hd, hh]; exact hra.1
  · unfold readAllRun; rw [hd, hh]; exact hra.2.1
  · unfold readAllRun; rw [hd, hh]; exact hra.2.2.2
  · intro s2 h2 h3
    constructor <;> simp [readOne, h2, h3]

/-- C6, witness: on the concrete destroyed cursor, a read reports the
destroyed resource error, returns 0 and performs no grid lookup. -/
theorem c6_witness :
    (readOne stD 3).res = ReadRes.zero
    ∧ (readOne stD 3).gridReads = 0 := by
  have h := c6_destroyed_forever stD cbF false 3 rfl rfl
  exact ⟨h.2.2.2.2.1, h.2.2.2.2.2.2.1⟩

/-- C7, claim: parseDate is a pure total function of its numeric input
whose result, as a millisecond offset from the reference epoch, equals
the rounded product of the epoch-adjusted serial minus the constant day
offset with the milliseconds per day, plus a fixed half-day offset. -/
theorem c7_parseDate_formula (serial : ℚ) (e : Bool) :
    parseDate serial e =
      jsRound ((serial + (if e then (1462 : ℚ) else 0) - (70 * 365 + 19)) *
        (24 * 60 * 60 * 1000)) + 12 * 60 * 60 * 1000 := by
  cases e
  · simp only [parseDate, Bool.false_eq_true, if_false]
    have h : (serial - (70 * 365 + 19 : ℚ)) * 24 * (60 * 60 * 1000) =
        (serial + 0 - (70 * 365 + 19)) * (24 * 60 * 60 * 1000) := by ring
    rw [h]
    norm_num
  · simp only [parseDate, if_true]
    have h : (serial + 1462 - (70 * 365 + 19 : ℚ)) * 24 * (60 * 60 * 1000) =
        (serial + 1462 - (70 * 365 + 19)) * (24 * 60 * 60 * 1000) := by ring
    rw [h]
    norm_num

/-- C8, the code at the failing input: in a facade read with a json
output sink over a sheet with rows 0 and 1, the sink receives the
header marker three times before the first record write (once from the
read method itself and once from each of the two start-event firings:
readAll fires start before its loop and the first row read fires it again
because the started flag is still clear), then the record writes, then
one finalize; the claimed single header-marker write is false. -/
theorem c8_triple_header_marker :
    facadeReadTrace 0 1 =
      [SinkEv.headerMark, SinkEv.headerMark, SinkEv.headerMark,
        SinkEv.recordWrite, SinkEv.finalizeEv]
    ∧ (facadeReadTrace 0 1).count SinkEv.headerMark = 3
    ∧ (facadeReadTrace 0 1).count SinkEv.headerMark ≠ 1
    ∧ (facadeReadTrace 0 1).count SinkEv.finalizeEv = 1 := by
  refine ⟨by decide, by decide, by decide, by decide⟩

/-- C9, the code at the failing input: on a workbook whose only sheet is
named Sheet1, loading by numeric index 0 looks the string 0 up in the
name-keyed sheet map and finds nothing (so the subsequent range decode
throws), even though the sheet at position 0 of the ordered sheet-name
list exists and loading it by name, or by the omitted-argument fallback,
succeeds; the claimed positional lookup does not happen. -/
theorem c9_numeric_index_lookup :
    loadSheetLookup bk1 (NameOrIndex.num 0) = none
    ∧ bk1.sheetNames.head? = some "Sheet1"
    ∧ loadSheetLookup bk1 (NameOrIndex.str "Sheet1") = some sd1
    ∧ loadSheetLookup bk1 NameOrIndex.other = some sd1 := by
  refine ⟨rfl, rfl, rfl, rfl⟩

/-- C10, claim: with an error handler registered, read returns the number
0 for every index once the cursor is destroyed, while a live cursor
returns the materialized row for an in-range resolved index and null for
an out-of-range resolved index; the destroyed and out-of-range failure
modes are therefore distinguishable by return value. -/
theorem c10_read_result (st : SheetSt) (idx : Int)
    (hh : st.handler = true) :
    (st.destroyed = true → (readOne st idx).res = ReadRes.zero)
    ∧ (st.destroyed = false →
        readResolve st.endRow idx < 0 ∨ readResolve st.endRow idx > st.endRow →
        (readOne st idx).res = ReadRes.nullRes)
    ∧ (st.destroyed = false →
        0 ≤ readResolve st.endRow idx → readResolve st.endRow idx ≤ st.endRow →
        (readOne st idx).res =
          ReadRes.row (rowCells st (readResolve st.endRow idx)))
    ∧ ReadRes.zero ≠ ReadRes.nullRes := by
  refine ⟨?_, ?_, ?_, by decide⟩
  · intro h
    simp [readOne, h, hh]
  · intro h hb
    simp only [readOne, h, Bool.false_eq_true, if_false]
    rw [if_pos hb]
    simp [hh]
  · intro h hb1 hb2
    simp only [readOne, h, Bool.false_eq_true, if_false]
    rw [if_neg (by omega : ¬(readResolve st.endRow idx < 0 ∨
      readResolve st.endRow idx > st.endRow))]

/-- C10, witness: on the concrete destroyed cursor read returns 0, and on
the concrete live ten-row cursor read returns null at the out-of-range
index 12 and the materialized row at index 3. -/
theorem c10_witness :
    (readOne stD 7).res = ReadRes.zero
    ∧ (readOne st10 12).res = ReadRes.nullRes
    ∧ (readOne st10 3).res = ReadRes.row (rowCells st10 3) := by
  refine ⟨(c10_read_result stD 7 rfl).1 rfl, ?_, ?_⟩
  · exact (c10_read_result st10 12 rfl).2.1 rfl (by decide)
  · exact (c10_read_result st10 3 rfl).2.2.1 rfl (by decide) (by decide)

end Fxr
